import Mathlib

/-!
Shallow embedding of the SkillChain AI engine feature-engineering and scoring
pipeline (packages/ai-engine), together with proofs of the specification
claims about it.  Python dicts are modelled as association lists with
first-occurrence lookup, Python floats as rationals, raising code as
Option-valued functions, and dict fields that may be absent as Option fields.
-/

namespace SkillChain

/-- Raw study-session record as it arrives from the datastore.  Each field that
may be absent from the Python dict is an Option; the alternate key spellings
that the code probes separately are separate fields.  A key that is present
with value None in Python is not distinguished from an absent key (no claim
depends on that distinction).  `completed` defaults to false on absence in
every consumer via record.get with default False, so it is a plain Bool. -/
structure Record where
  userId : Option String
  user_id : Option String
  courseId : Option String
  course_id : Option String
  method : Option String
  method_used : Option String
  duration_seconds : Option ℚ
  duration : Option ℚ
  tabSwitchCount : Option ℚ
  tab_switch_count : Option ℚ
  completed : Bool
  started_at : Option String
deriving DecidableEq

/-- A record with every optional key absent and completed = false. -/
def emptyRec : Record :=
  ⟨none, none, none, none, none, none, none, none, none, none, false, none⟩

/-- First-occurrence lookup in an association list; models Python dict lookup
(dict keys are unique, so first occurrence is the only occurrence). -/
def lookupA {κ β : Type} [DecidableEq κ] (k : κ) : List (κ × β) → Option β
  | [] => none
  | (k₂, v) :: rest => if k₂ = k then some v else lookupA k rest

/-- In-place update of the value at a key, appending when the key is new;
models Python `d[k] = f(d.get(k))`.  Iteration order of the resulting list
matches dict insertion order. -/
def upsert {κ β : Type} [DecidableEq κ] (k : κ) (f : Option β → β) :
    List (κ × β) → List (κ × β)
  | [] => [(k, f none)]
  | (k₂, v) :: rest =>
      if k₂ = k then (k₂, f (some v)) :: rest else (k₂, v) :: upsert k f rest

/-- Insert x into a list, placing it after every element y with le y x; used
by `isort` below. -/
def insertK {α : Type} (le : α → α → Bool) (x : α) : List α → List α
  | [] => [x]
  | y :: ys => if le y x then y :: insertK le x ys else x :: y :: ys

/-- Stable insertion sort: elements are inserted in their original order and a
later element is placed after every earlier element it ties with, so the
result coincides with the stable sort used by Python `list.sort`. -/
def isort {α : Type} (le : α → α → Bool) (l : List α) : List α :=
  l.foldl (fun acc x => insertK le x acc) []

/-- Strict lexicographic comparison on the character lists of two strings via
code points; mirrors Python/numpy ordering on the ASCII method names. -/
def strLtL : List Char → List Char → Bool
  | [], [] => false
  | [], _ :: _ => true
  | _ :: _, [] => false
  | a :: as, b :: bs =>
      if a.val < b.val then true
      else if b.val < a.val then false
      else strLtL as bs

/-- Non-strict string comparison derived from `strLtL`. -/
def strLe (a b : String) : Bool := !(strLtL b.data a.data)

/-- Numeric value of a digit character. -/
def digitVal (c : Char) : ℕ := c.toNat - 48

/-- Parse `int(s[11:13])` for a string of length at least 14: both characters
must be decimal digits.  Python int() also tolerates sign and whitespace
characters; such timestamps do not occur in ISO-8601 data and are treated as
parse failures here. -/
def parseHourDigits (s : String) : Option ℕ :=
  match s.data.get? 11, s.data.get? 12 with
  | some a, some b =>
      if a.isDigit && b.isDigit then some (digitVal a * 10 + digitVal b) else none
  | _, _ => none

/-- Gregorian leap-year test. -/
def isLeap (y : ℕ) : Bool := (y % 4 == 0 && y % 100 != 0) || (y % 400 == 0)

/-- Number of days in a month. -/
def daysInMonth (y m : ℕ) : ℕ :=
  if m = 2 then (if isLeap y then 29 else 28)
  else if m ∈ [4, 6, 9, 11] then 30 else 31

/-- Day of week with Monday = 0 (the convention of Python datetime.weekday),
computed by the Zeller congruence. -/
def zellerWeekday (y m d : ℕ) : ℕ :=
  let m₂ := if m < 3 then m + 12 else m
  let y₂ := if m < 3 then y - 1 else y
  let k := y₂ % 100
  let j := y₂ / 100
  ((d + (13 * (m₂ + 1)) / 5 + k + k / 4 + j / 4 + 5 * j) % 7 + 5) % 7

/-- Validity check for the part of an ISO string after the 10-character date:
either nothing, or a separator followed by at least HH:MM with digits in the
right places.  Python datetime.fromisoformat additionally validates seconds,
fractions, offsets and the numeric ranges of the time fields; the claims
exercise this function only on absent or malformed date parts, where both
agree. -/
def isoTailOk : List Char → Bool
  | [] => true
  | sep :: rest =>
      (sep == 'T' || sep == ' ') &&
      match rest with
      | h1 :: h2 :: c :: m1 :: m2 :: _ =>
          h1.isDigit && h2.isDigit && (c == ':') && m1.isDigit && m2.isDigit
      | _ => false

/-- Parse the date part YYYY-MM-DD of an ISO-8601 string, validating digit
positions, dashes, and month/day ranges; none models a ValueError from
datetime.fromisoformat. -/
def isoDate (s : String) : Option (ℕ × ℕ × ℕ) :=
  match s.data with
  | y1 :: y2 :: y3 :: y4 :: da :: m1 :: m2 :: db :: d1 :: d2 :: rest =>
      if y1.isDigit && y2.isDigit && y3.isDigit && y4.isDigit && (da == '-') &&
         m1.isDigit && m2.isDigit && (db == '-') && d1.isDigit && d2.isDigit &&
         isoTailOk rest then
        let y := digitVal y1 * 1000 + digitVal y2 * 100 + digitVal y3 * 10 + digitVal y4
        let m := digitVal m1 * 10 + digitVal m2
        let d := digitVal d1 * 10 + digitVal d2
        if 1 ≤ y ∧ 1 ≤ m ∧ m ≤ 12 ∧ 1 ≤ d ∧ d ≤ daysInMonth y m then
          some (y, m, d)
        else none
      else none
  | _ => none

/-- Weekday (Monday = 0) of an ISO timestamp string, none on parse failure;
models `datetime.fromisoformat(s).weekday()` inside try/except. -/
def isoWeekday (s : String) : Option ℕ :=
  (isoDate s).map (fun p => zellerWeekday p.1 p.2.1 p.2.2)

/-- Replace every Z character by the UTC offset +00:00; models the call
started_at.replace applied before fromisoformat in scheduling_model.py
line 68 (structural recursion so that it evaluates inside the kernel). -/
def replaceZ (s : String) : String :=
  ⟨s.data.foldr
    (fun c acc =>
      if c = 'Z' then '+' :: '0' :: '0' :: ':' :: '0' :: '0' :: acc
      else c :: acc)
    []⟩

namespace SchedulingModel

/-- models/scheduling_model.py line 40. -/
def METHODS : List String := ["pomodoro", "flowtime", "blitz", "52_17"]

/-- The classes of the fitted sklearn LabelEncoder: the method enumeration in
lexicographically sorted order (LabelEncoder.fit stores numpy sorted unique
classes); scheduling_model.py lines 45-46. -/
def encoderClasses : List String := isort strLe METHODS

/-- LabelEncoder.transform on one value: index in the sorted class list;
none models the ValueError on an unseen value. -/
def labelTransform (m : String) : Option ℕ :=
  encoderClasses.findIdx? (fun x => x = m)

/-- LabelEncoder.inverse_transform on one integer label: class at that
index. -/
def labelDecode (i : ℕ) : Option String := encoderClasses.get? i

/-- Hour component used by the per-record feature row; scheduling_model.py
lines 54-63.  An absent key yields the empty string, a value that is not a
nonempty string yields 12, a string of length at most 13 yields 12, and a
parse failure in int(s[11:13]) is caught and yields 12. -/
def featHour (r : Record) : ℕ :=
  let s := r.started_at.getD ""
  if s.length = 0 then 12
  else if s.length > 13 then (parseHourDigits s).getD 12
  else 12

/-- Weekday component of the feature row; scheduling_model.py lines 65-71.
Parse failure of datetime.fromisoformat is caught and yields 0. -/
def featWeekday (r : Record) : ℕ :=
  (isoWeekday (replaceZ (r.started_at.getD ""))).getD 0

/-- METHODS.index(m); none models the ValueError raised when m is not in the
list (scheduling_model.py line 77). -/
def methodIndex (m : String) : Option ℕ :=
  METHODS.findIdx? (fun x => x = m)

/-- The 6-entry feature row of one record; scheduling_model.py lines 74-81.
Only the snake_case keys method_used, duration_seconds and tab_switch_count
are read.  none models the ValueError from METHODS.index on a method value
outside the enumeration. -/
def schedRow (r : Record) : Option (List ℚ) := do
  let mi ← methodIndex (r.method_used.getD "pomodoro")
  pure [ (featHour r : ℚ) / 24,
         (featWeekday r : ℚ) / 7,
         (mi : ℚ) / 4,
         (r.duration_seconds.getD 1500) / 7200,
         (r.tab_switch_count.getD 0) / 20,
         if r.completed then 1 else 0 ]

/-- prepare_features; scheduling_model.py lines 49-84.  A ValueError on any
record aborts the whole call, modelled by Option. -/
def prepare_features (data : List Record) : Option (List (List ℚ)) :=
  data.mapM schedRow

/-- prepare_labels; scheduling_model.py lines 86-96.  A method value outside
the enumeration is resolved to pomodoro before encoding, so this never
fails; List.findIdx returns the index of the guaranteed hit. -/
def prepare_labels (data : List Record) : List ℕ :=
  data.map (fun r =>
    let m := r.method_used.getD "pomodoro"
    let m₂ := if m ∈ METHODS then m else "pomodoro"
    encoderClasses.findIdx (fun x => x = m₂))

/-- Per-hour session tally used by _find_optimal_hours. -/
structure HourStat where
  total : ℕ
  completedCount : ℕ
deriving DecidableEq

/-- Hour of one record inside the try block of _find_optimal_hours
(scheduling_model.py lines 212-214): a string of length at most 13 (the
empty string standing for an absent key included) yields hour 12, and an
int() failure on a longer string propagates to the except clause, which
skips the record entirely (modelled none). -/
def optHourOf (r : Record) : Option ℕ :=
  let s := r.started_at.getD ""
  if s.length > 13 then parseHourDigits s else some 12

/-- The hour_stats dict of _find_optimal_hours; scheduling_model.py lines
209-223.  Association-list order is dict insertion order. -/
def hourStats (user_data : List Record) : List (ℕ × HourStat) :=
  user_data.foldl
    (fun acc r =>
      match optHourOf r with
      | none => acc
      | some h =>
          upsert h
            (fun st? =>
              let st := st?.getD ⟨0, 0⟩
              ⟨st.total + 1, st.completedCount + (if r.completed then 1 else 0)⟩)
            acc)
    []

/-- The hour_rates list: hours with at least 3 sessions paired with their
completion rate, in dict order; scheduling_model.py lines 226-230. -/
def hour_rates (user_data : List Record) : List (ℕ × ℚ) :=
  (hourStats user_data).filterMap
    (fun p =>
      if p.2.total ≥ 3 then some (p.1, (p.2.completedCount : ℚ) / p.2.total)
      else none)

/-- Models _find_optimal_hours; scheduling_model.py lines 207-236: stable-sort the
rates descending, take the hours of the first 6, fall back to the fixed
default window when no hour qualifies, and return the result sorted
ascending. -/
def find_optimal_hours (user_data : List Record) : List ℕ :=
  let rates := hour_rates user_data
  let sortedRates := isort (fun a b => decide (b.2 ≤ a.2)) rates
  let optimal :=
    if rates.isEmpty then [9, 10, 11, 14, 15, 16]
    else (sortedRates.take 6).map Prod.fst
  isort (fun a b => decide (a ≤ b)) optimal

end SchedulingModel

namespace PerformanceModel

/-- Duration of one record; performance_model.py line 70 probes the key
duration_seconds first, then duration, then the default 1500. -/
def perfDuration (r : Record) : ℚ :=
  match r.duration_seconds with
  | some v => v
  | none => r.duration.getD 1500

/-- Tab-switch count of one record; performance_model.py line 71 probes the
key tabSwitchCount first, then tab_switch_count, then the default 0. -/
def perfTabs (r : Record) : ℚ :=
  match r.tabSwitchCount with
  | some v => v
  | none => r.tab_switch_count.getD 0

/-- Study method of one record; performance_model.py line 73 probes the key
method first, then method_used, then the default pomodoro. -/
def perfMethod (r : Record) : String :=
  match r.method with
  | some v => v
  | none => r.method_used.getD "pomodoro"

/-- User identifier of one record; performance_model.py line 54 probes userId
then user_id. -/
def perfUserId (r : Record) : Option String :=
  match r.userId with
  | some v => some v
  | none => r.user_id

/-- Structured prediction of the performance model. -/
structure PerfPrediction where
  predicted_completion_rate : ℚ
  predicted_quiz_score : ℚ
  risk_level : String
  recommendations : List String
deriving DecidableEq

/-- Models _default_prediction; performance_model.py lines 334-346.  Note that it
carries four recommendation strings. -/
def defaultPrediction : PerfPrediction :=
  { predicted_completion_rate := 1/2
    predicted_quiz_score := 65
    risk_level := "medium"
    recommendations :=
      [ "Set a consistent study schedule",
        "Start with shorter study sessions",
        "Review material before quizzes",
        "Minimize distractions during study" ] }

/-- Outcome of PerformanceModel.predict: either a concrete prediction from a
default branch, or the path through the fitted regressors, whose numeric
output is a black box of the estimator library and is not modelled
further. -/
inductive PerfOutcome where
  | pred (p : PerfPrediction)
  | trainedPath
deriving DecidableEq

/-- Branch structure of PerformanceModel.predict; performance_model.py lines
185-197.  is_trained and the success of _load_model are the two booleans of
line 192. -/
def predict (is_trained load_ok : Bool) (user_data : List Record) : PerfOutcome :=
  if !is_trained && !load_ok then .pred defaultPrediction
  else if user_data.isEmpty then .pred defaultPrediction
  else .trainedPath

/-- The rule-based risk accumulation of _calculate_risk_level;
performance_model.py lines 262-276.  The mean of the tab-switch list is
sum / length; for the empty list numpy returns NaN, for which the comparison
NaN > 5 is false, and rational division by zero gives 0 > 5, also false, so
the two agree on the third addend. -/
def riskPoints (completion_rate quiz_score : ℚ) (tab_switches : List ℚ) : ℕ :=
  (if completion_rate < 1/2 then 2 else if completion_rate < 7/10 then 1 else 0) +
  (if quiz_score < 60 then 2 else if quiz_score < 75 then 1 else 0) +
  (if tab_switches.sum / (tab_switches.length : ℚ) > 5 then 1 else 0)

/-- Models _calculate_risk_level; performance_model.py lines 254-283, with the
accumulated score split out as riskPoints. -/
def calculate_risk_level (completion_rate quiz_score : ℚ)
    (tab_switches : List ℚ) : String :=
  let s := riskPoints completion_rate quiz_score tab_switches
  if s ≥ 4 then "high" else if s ≥ 2 then "medium" else "low"

/-- Rank of a risk tier in the order low < medium < high, used to state the
monotonicity claim. -/
def tierRank : String → ℕ
  | "high" => 2
  | "medium" => 1
  | _ => 0

end PerformanceModel

/-- The empty-history default of the /predict/performance endpoint;
packages/ai-engine/main.py lines 248-258.  Note that it carries three
recommendation strings, one fewer than the model-level default. -/
def endpointDefaultPrediction : PerformanceModel.PerfPrediction :=
  { predicted_completion_rate := 1/2
    predicted_quiz_score := 65
    risk_level := "medium"
    recommendations :=
      [ "Set a consistent study schedule",
        "Start with shorter study sessions",
        "Review material before quizzes" ] }

/-- Branch structure of the /predict/performance endpoint; main.py lines
240-267: an empty fetched history short-circuits to the endpoint default,
otherwise the loaded model predicts (its trained state abstracted by the two
booleans). -/
def predict_performance (is_trained load_ok : Bool)
    (user_data : List Record) : PerformanceModel.PerfOutcome :=
  if user_data.isEmpty then .pred endpointDefaultPrediction
  else PerformanceModel.predict is_trained load_ok user_data

namespace RecommendationModel

/-- Identifier treated as present by the Python truthiness test
`if not user_id or not course_id: continue`: None and the empty string are
both falsy. -/
def presentId (o : Option String) : Option String :=
  match o with
  | none => none
  | some s => if s = "" then none else some s

/-- User identifier of a record as read by train; recommendation_model.py
line 51. -/
def recUserId (r : Record) : Option String :=
  presentId (match r.userId with | some v => some v | none => r.user_id)

/-- Course identifier of a record as read by train; recommendation_model.py
line 52. -/
def recCourseId (r : Record) : Option String :=
  presentId (match r.courseId with | some v => some v | none => r.course_id)

/-- Per-course interaction tally of the course_completions dict. -/
structure CourseStats where
  total : ℕ
  completedCount : ℕ
deriving DecidableEq

/-- The user_course_matrix: user to (course to best observed interaction
score). -/
abbrev UserProfiles := List (String × List (String × ℚ))

/-- The course_completions dict. -/
abbrev CourseProfiles := List (String × CourseStats)

/-- One iteration of the record loop of train; recommendation_model.py lines
50-74: records lacking either identifier are skipped, the stored score is
max(previous, 1.0 if completed else 0.5), and the course tally counts total
and completed interactions. -/
def trainStep (acc : UserProfiles × CourseProfiles) (r : Record) :
    UserProfiles × CourseProfiles :=
  match recUserId r, recCourseId r with
  | some u, some c =>
      let score : ℚ := if r.completed then 1 else 1/2
      let m₁ := upsert u
        (fun row? =>
          let row := row?.getD []
          upsert c (fun old? => max (old?.getD 0) score) row)
        acc.1
      let m₂ := upsert c
        (fun st? =>
          let st := st?.getD ⟨0, 0⟩
          ⟨st.total + 1, st.completedCount + (if r.completed then 1 else 0)⟩)
        acc.2
      (m₁, m₂)
  | _, _ => acc

/-- train: builds the two lookup structures that are the trained
recommendation model; recommendation_model.py lines 42-78. -/
def train (data : List Record) : UserProfiles × CourseProfiles :=
  data.foldl trainStep ([], [])

/-- Stored interaction score of a (user, course) pair in the trained user
profiles. -/
def lookupScore (up : UserProfiles) (u c : String) : Option ℚ :=
  (lookupA u up).bind (lookupA c)

/-- User profile handed to recommend by the data service; the fields of the
user_data dict that _calculate_course_score and _calculate_collaborative_score
read. -/
structure UserData where
  id : Option String
  user_id : Option String
  skill_level : Option String
  interests : List String
  completed_courses : List String
  enrolled_courses : List String

/-- Candidate course dict fields read by the scorer. -/
structure Course where
  id : Option String
  difficulty : Option String
  category : Option String

/-- The fixed 3x3 skill/difficulty lookup table; recommendation_model.py
lines 176-186. -/
def level_match : List ((String × String) × ℚ) :=
  [ (("beginner", "beginner"), 1),
    (("beginner", "intermediate"), 7/10),
    (("beginner", "advanced"), 3/10),
    (("intermediate", "beginner"), 6/10),
    (("intermediate", "intermediate"), 1),
    (("intermediate", "advanced"), 8/10),
    (("advanced", "beginner"), 3/10),
    (("advanced", "intermediate"), 7/10),
    (("advanced", "advanced"), 1) ]

/-- level_match.get((user_level, course_level), 0.5); line 187. -/
def levelMatchScore (u c : String) : ℚ :=
  (lookupA (u, c) level_match).getD (1/2)

/-- Lookup with an optional key: `x in d` is false when x is None. -/
def lookupOpt {β : Type} (k : Option String) (l : List (String × β)) : Option β :=
  k.bind (fun kk => lookupA kk l)

/-- Lowercased string via ASCII character lowering; models str.lower on the
ASCII category and interest names. -/
def lowerStr (s : String) : String := s.map Char.toLower

/-- One iteration of the similar-user loop of
_calculate_collaborative_score (recommendation_model.py lines 223-232): the
Jaccard-weighted interaction score this other user contributes for the
candidate course, none when the other user is the user themselves, shares no
course, or has no interaction with the candidate.  Python set intersection
and union sizes are computed on the key lists, whose keys are distinct by
construction of upsert. -/
def collabTerm (uid : String) (userKeys : List String) (course_id : Option String)
    (other : String × List (String × ℚ)) : Option ℚ :=
  if other.1 = uid then none
  else
    let otherKeys := other.2.map Prod.fst
    let overlap := (userKeys.filter (fun c => decide (c ∈ otherKeys))).length
    let unionLen :=
      (userKeys ++ otherKeys.filter (fun c => decide (c ∉ userKeys))).length
    match lookupOpt course_id other.2 with
    | some v =>
        if overlap > 0 then some (v * ((overlap : ℚ) / unionLen)) else none
    | none => none

/-- Models _calculate_collaborative_score; recommendation_model.py lines 206-237. -/
def calcCollaborative (user_data : UserData) (course_id : Option String)
    (user_profiles : UserProfiles) : ℚ :=
  let uid? := match user_data.id with | some v => some v | none => user_data.user_id
  match uid? with
  | none => 1/2
  | some uid =>
    match lookupA uid user_profiles with
    | none => 1/2
    | some user_courses =>
      let similar_scores := user_profiles.filterMap
        (collabTerm uid (user_courses.map Prod.fst) course_id)
      if similar_scores.isEmpty then 1/2
      else similar_scores.sum / (similar_scores.length : ℚ)

/-- Course-popularity signal: 0.30 times the course-wide completion rate, 0
for a course unseen in training; recommendation_model.py lines 165-170. -/
def popularityScore (course : Course) (course_profiles : CourseProfiles) : ℚ :=
  match lookupOpt course.id course_profiles with
  | some stats =>
      if stats.total > 0 then ((stats.completedCount : ℚ) / stats.total) * (3/10)
      else 0
  | none => 0

/-- Difficulty-match signal: 0.20 times the table score; lines 172-187. -/
def difficultyScore (user_data : UserData) (course : Course) : ℚ :=
  levelMatchScore (user_data.skill_level.getD "beginner")
    (course.difficulty.getD "beginner") * (2/10)

/-- Interest signal: flat 0.30 bonus on a case-insensitive category match;
lines 189-194. -/
def interestScore (user_data : UserData) (course : Course) : ℚ :=
  if lowerStr (course.category.getD "") ∈ user_data.interests.map lowerStr
  then 3/10 else 0

/-- Collaborative signal: 0.20 times the similar-user score; lines 196-202. -/
def collaborativeScore (user_data : UserData) (course : Course)
    (user_profiles : UserProfiles) : ℚ :=
  calcCollaborative user_data course.id user_profiles * (2/10)

/-- Models _calculate_course_score; recommendation_model.py lines 153-204: the sum
of the four signals, capped at 1.0. -/
def calculate_course_score (user_data : UserData) (course : Course)
    (user_profiles : UserProfiles) (course_profiles : CourseProfiles) : ℚ :=
  min 1 (popularityScore course course_profiles +
         difficultyScore user_data course +
         interestScore user_data course +
         collaborativeScore user_data course user_profiles)

end RecommendationModel

/-- Structured training response of the /train endpoint; main.py lines 55-61.
The trained_at timestamp is an impure clock read and is not modelled. -/
structure TrainResponse where
  success : Bool
  model_type : String
  metrics : List (String × ℚ)
  training_samples : ℕ
  message : Option String
deriving DecidableEq

/-- Outcome of the /train endpoint: a 400-equivalent rejection of an unknown
model type, an early structured response returned before the training
service, feature builders, estimator or save hook are invoked, or the path
that proceeds to fitting (whose metrics come from the black-box estimator
and are not modelled further). -/
inductive TrainOutcome where
  | badModelType
  | early (resp : TrainResponse)
  | fitted (samples : ℕ)
deriving DecidableEq

/-- Branch structure of the /train endpoint applied to the fetched record
list; main.py lines 106-153. -/
def train_model (model_type : String) (training_data : List Record) : TrainOutcome :=
  if model_type ∉ ["scheduling", "recommendation", "performance"] then .badModelType
  else if training_data.length < 50 then
    .early
      { success := false
        model_type := model_type
        metrics := []
        training_samples := training_data.length
        message := some ("Insufficient data: " ++ toString training_data.length ++
          " samples (minimum 50 required)") }
  else .fitted training_data.length

/-! Helper lemmas about the association-list and sorting primitives. -/

theorem lookupA_mem {κ β : Type} [DecidableEq κ] {k : κ} {v : β} :
    ∀ {l : List (κ × β)}, lookupA k l = some v → (k, v) ∈ l := by
  intro l
  induction l with
  | nil => intro h; simp [lookupA] at h
  | cons p rest ih =>
      intro h
      simp only [lookupA] at h
      split at h
      · rename_i heq
        cases h
        cases p
        simp_all
      · exact List.mem_cons_of_mem _ (ih h)

theorem lookupA_upsert_self {κ β : Type} [DecidableEq κ] (k : κ)
    (f : Option β → β) :
    ∀ (l : List (κ × β)), lookupA k (upsert k f l) = some (f (lookupA k l)) := by
  intro l
  induction l with
  | nil => simp [lookupA, upsert]
  | cons p rest ih =>
      simp only [upsert]
      by_cases h : p.1 = k
      · cases p
        simp_all [lookupA, upsert]
      · cases p
        simp_all [lookupA, upsert]

theorem lookupA_upsert_ne {κ β : Type} [DecidableEq κ] {k k₂ : κ}
    (f : Option β → β) (hne : k₂ ≠ k) :
    ∀ (l : List (κ × β)), lookupA k (upsert k₂ f l) = lookupA k l := by
  intro l
  induction l with
  | nil => simp [lookupA, upsert, hne]
  | cons p rest ih =>
      cases p with
      | mk k₃ v =>
        simp only [upsert]
        by_cases h : k₃ = k₂
        · subst h
          simp [lookupA, hne]
        · simp only [if_neg h]
          by_cases h₂ : k₃ = k
          · simp [lookupA, h₂]
          · simp [lookupA, h₂, ih]

theorem mem_upsert {κ β : Type} [DecidableEq κ] {k : κ} {f : Option β → β}
    {q : κ × β} :
    ∀ {l : List (κ × β)}, q ∈ upsert k f l → q ∈ l ∨ q = (k, f (lookupA k l)) := by
  intro l
  induction l with
  | nil =>
      intro h
      simp [upsert] at h
      exact Or.inr (by simp [lookupA, h])
  | cons p rest ih =>
      intro h
      cases p with
      | mk k₃ v =>
        simp only [upsert] at h
        split at h
        · rename_i heq
          rcases List.mem_cons.mp h with h₁ | h₁
          · subst heq
            exact Or.inr (by simp [lookupA, h₁])
          · exact Or.inl (List.mem_cons_of_mem _ h₁)
        · rename_i hne
          rcases List.mem_cons.mp h with h₁ | h₁
          · exact Or.inl (h₁ ▸ List.mem_cons_self _ _)
          · rcases ih h₁ with h₂ | h₂
            · exact Or.inl (List.mem_cons_of_mem _ h₂)
            · refine Or.inr ?_
              rw [h₂]
              simp [lookupA, hne]

theorem length_insertK {α : Type} (le : α → α → Bool) (x : α) :
    ∀ (l : List α), (insertK le x l).length = l.length + 1 := by
  intro l
  induction l with
  | nil => simp [insertK]
  | cons y ys ih =>
      simp only [insertK]
      split <;> simp [ih]

theorem mem_insertK {α : Type} {le : α → α → Bool} {x a : α} :
    ∀ {l : List α}, a ∈ insertK le x l ↔ a = x ∨ a ∈ l := by
  intro l
  induction l with
  | nil => simp [insertK]
  | cons y ys ih =>
      simp only [insertK]
      split <;> simp only [List.mem_cons, ih] <;> tauto

theorem pairwise_insertK {α : Type} {le : α → α → Bool}
    (htot : ∀ a b, le a b = true ∨ le b a = true)
    (htrans : ∀ a b c, le a b = true → le b c = true → le a c = true)
    (x : α) :
    ∀ {l : List α}, List.Pairwise (fun a b => le a b = true) l →
      List.Pairwise (fun a b => le a b = true) (insertK le x l) := by
  intro l
  induction l with
  | nil => intro _; simp [insertK]
  | cons y ys ih =>
      intro hp
      rcases List.pairwise_cons.mp hp with ⟨hy, hys⟩
      simp only [insertK]
      split
      · rename_i hle
        refine List.pairwise_cons.mpr ⟨?_, ih hys⟩
        intro z hz
        rcases mem_insertK.mp hz with h | h
        · exact h ▸ hle
        · exact hy z h
      · rename_i hnle
        have hxy : le x y = true := by
          rcases htot x y with h | h
          · exact h
          · exact absurd h hnle
        refine List.pairwise_cons.mpr ⟨?_, hp⟩
        intro z hz
        rcases List.mem_cons.mp hz with h | h
        · exact h ▸ hxy
        · exact htrans x y z hxy (hy z h)

theorem foldl_insertK_length {α : Type} (le : α → α → Bool) :
    ∀ (l acc : List α),
      (l.foldl (fun a x => insertK le x a) acc).length = acc.length + l.length := by
  intro l
  induction l with
  | nil => simp
  | cons x xs ih =>
      intro acc
      simp only [List.foldl_cons, ih, length_insertK, List.length_cons]
      omega

theorem length_isort {α : Type} (le : α → α → Bool) (l : List α) :
    (isort le l).length = l.length := by
  simp [isort, foldl_insertK_length]

theorem foldl_insertK_mem {α : Type} {le : α → α → Bool} {a : α} :
    ∀ {l acc : List α},
      a ∈ l.foldl (fun acc₂ x => insertK le x acc₂) acc ↔ a ∈ acc ∨ a ∈ l := by
  intro l
  induction l with
  | nil => simp
  | cons x xs ih =>
      intro acc
      simp only [List.foldl_cons, ih, mem_insertK, List.mem_cons]
      tauto

theorem mem_isort {α : Type} {le : α → α → Bool} {a : α} {l : List α} :
    a ∈ isort le l ↔ a ∈ l := by
  simp [isort, foldl_insertK_mem]

theorem pairwise_isort {α : Type} {le : α → α → Bool}
    (htot : ∀ a b, le a b = true ∨ le b a = true)
    (htrans : ∀ a b c, le a b = true → le b c = true → le a c = true)
    (l : List α) :
    List.Pairwise (fun a b => le a b = true) (isort le l) := by
  suffices h : ∀ (l acc : List α),
      List.Pairwise (fun a b => le a b = true) acc →
      List.Pairwise (fun a b => le a b = true)
        (l.foldl (fun a x => insertK le x a) acc) by
    exact h l [] List.Pairwise.nil
  intro l₂
  induction l₂ with
  | nil => intro acc h; simpa using h
  | cons x xs ih =>
      intro acc h
      exact ih _ (pairwise_insertK htot htrans x h)

theorem list_sum_le_length (l : List ℚ) (h : ∀ x ∈ l, x ≤ 1) :
    l.sum ≤ (l.length : ℚ) := by
  induction l with
  | nil => simp
  | cons x xs ih =>
      simp only [List.sum_cons, List.length_cons]
      have hx : x ≤ 1 := h x (List.mem_cons_self _ _)
      have hxs : xs.sum ≤ (xs.length : ℚ) :=
        ih (fun y hy => h y (List.mem_cons_of_mem _ hy))
      push_cast
      linarith

theorem list_sum_nonneg (l : List ℚ) (h : ∀ x ∈ l, 0 ≤ x) : 0 ≤ l.sum := by
  induction l with
  | nil => simp
  | cons x xs ih =>
      simp only [List.sum_cons]
      have hx : 0 ≤ x := h x (List.mem_cons_self _ _)
      have hxs : 0 ≤ xs.sum := ih (fun y hy => h y (List.mem_cons_of_mem _ hy))
      linarith

/-! Claim theorems. -/

/-- C1: a training request whose fetched record list has fewer than 50
records returns the structured unsuccessful response (success = false,
empty metrics, training_samples equal to the exact record count and the
insufficient-data message) on the early path, before the feature builders,
the estimator fit or the save hook are reached; with 50 or more records the
endpoint proceeds to fitting. -/
theorem train_insufficient_data (model_type : String)
    (training_data : List Record)
    (hmt : model_type ∈ ["scheduling", "recommendation", "performance"]) :
    (training_data.length < 50 →
      train_model model_type training_data =
        .early
          { success := false
            model_type := model_type
            metrics := []
            training_samples := training_data.length
            message := some ("Insufficient data: " ++
              toString training_data.length ++
              " samples (minimum 50 required)") }) ∧
    (50 ≤ training_data.length →
      train_model model_type training_data = .fitted training_data.length) := by
  constructor
  · intro hlt
    simp [train_model, hmt, hlt]
  · intro hge
    have : ¬ training_data.length < 50 := by omega
    simp [train_model, hmt, this]

/-- Witness for train_insufficient_data at concrete record lists of lengths
49 and 50. -/
theorem train_insufficient_data_witness :
    train_model "scheduling" (List.replicate 49 emptyRec) =
      .early
        { success := false
          model_type := "scheduling"
          metrics := []
          training_samples := 49
          message := some "Insufficient data: 49 samples (minimum 50 required)" } ∧
    train_model "scheduling" (List.replicate 50 emptyRec) = .fitted 50 := by
  constructor
  · have h := (train_insufficient_data "scheduling" (List.replicate 49 emptyRec)
      (by decide)).1 (by simp)
    simpa using h
  · have h := (train_insufficient_data "scheduling" (List.replicate 50 emptyRec)
      (by decide)).2 (by simp)
    simpa using h

/-- C2 counterexample: with an untrained and unloadable artifact and a
nonempty history, the performance predictor returns the model-level default
prediction, whose recommendation list has four entries, not the three the
claim states. -/
theorem default_prediction_has_four_recommendations :
    PerformanceModel.predict false false [emptyRec] =
      .pred PerformanceModel.defaultPrediction ∧
    PerformanceModel.defaultPrediction.recommendations.length = 4 :=
  ⟨rfl, rfl⟩

/-- C2 amended: untrained-and-unloadable artifact, or empty history at the
model level, yields the model-level hardcoded default with completion rate
0.5, quiz score 65.0, risk medium and four fixed recommendation strings;
the empty-history shortcut of the endpoint yields the same numbers with
three fixed recommendation strings. -/
theorem default_prediction_paths (is_trained load_ok : Bool)
    (user_data : List Record) :
    (is_trained = false → load_ok = false →
      PerformanceModel.predict is_trained load_ok user_data =
        .pred PerformanceModel.defaultPrediction) ∧
    (user_data = [] →
      PerformanceModel.predict is_trained load_ok user_data =
        .pred PerformanceModel.defaultPrediction) ∧
    (user_data = [] →
      predict_performance is_trained load_ok user_data =
        .pred endpointDefaultPrediction) ∧
    PerformanceModel.defaultPrediction.predicted_completion_rate = 1/2 ∧
    PerformanceModel.defaultPrediction.predicted_quiz_score = 65 ∧
    PerformanceModel.defaultPrediction.risk_level = "medium" ∧
    PerformanceModel.defaultPrediction.recommendations.length = 4 ∧
    endpointDefaultPrediction.predicted_completion_rate = 1/2 ∧
    endpointDefaultPrediction.predicted_quiz_score = 65 ∧
    endpointDefaultPrediction.risk_level = "medium" ∧
    endpointDefaultPrediction.recommendations.length = 3 := by
  refine ⟨?_, ?_, ?_, rfl, rfl, rfl, rfl, rfl, rfl, rfl, rfl⟩
  · rintro rfl rfl
    simp [PerformanceModel.predict]
  · rintro rfl
    simp [PerformanceModel.predict]
  · rintro rfl
    simp [predict_performance]

/-- Witness for default_prediction_paths at concrete inputs: the untrained
case at a singleton history and the empty-history case of the endpoint. -/
theorem default_prediction_paths_witness :
    PerformanceModel.predict false false [emptyRec] =
      .pred PerformanceModel.defaultPrediction ∧
    predict_performance true true [] = .pred endpointDefaultPrediction :=
  ⟨(default_prediction_paths false false [emptyRec]).1 rfl rfl,
   (default_prediction_paths true true []).2.2.1 rfl⟩

/-- C4: the scheduling feature builder aborts with a ValueError (modelled
none) on a record whose method value lies outside the fixed enumeration,
while label extraction on the identical record resolves the method to
pomodoro (encoded 3 in the sorted class list) as documented; evaluating the
embedded code at the failing input exhibits the divergence from the
never-raises policy the specification states. -/
theorem feature_extraction_fails_on_unknown_method :
    SchedulingModel.prepare_features
      [{ emptyRec with method_used := some "speedrun" }] = none ∧
    SchedulingModel.prepare_labels
      [{ emptyRec with method_used := some "speedrun" }] = [3] := by
  constructor <;> rfl

/-- C8: a record with no timestamp yields derived hour 12 and derived
weekday 0, and a record whose timestamp string is shorter than 14
characters yields derived hour 12. -/
theorem default_hour_and_weekday (r : Record) :
    (r.started_at = none →
      SchedulingModel.featHour r = 12 ∧ SchedulingModel.featWeekday r = 0) ∧
    (∀ s, r.started_at = some s → s.length < 14 →
      SchedulingModel.featHour r = 12) := by
  constructor
  · intro h
    rw [SchedulingModel.featHour, SchedulingModel.featWeekday, h]
    constructor <;> rfl
  · intro s hs hlen
    rw [SchedulingModel.featHour, hs]
    simp only [Option.getD_some]
    have h13 : ¬ s.length > 13 := by omega
    by_cases h0 : s.length = 0
    · simp [h0]
    · simp [h0, h13]

/-- Witness for default_hour_and_weekday: a record with no timestamp and a
record with the 10-character timestamp 2024-01-01. -/
theorem default_hour_and_weekday_witness :
    (SchedulingModel.featHour emptyRec = 12 ∧
     SchedulingModel.featWeekday emptyRec = 0) ∧
    SchedulingModel.featHour { emptyRec with started_at := some "2024-01-01" } = 12 :=
  ⟨(default_hour_and_weekday emptyRec).1 rfl,
   (default_hour_and_weekday { emptyRec with started_at := some "2024-01-01" }).2
     "2024-01-01" rfl (by decide)⟩

/-- C3 counterexample: the scheduling feature builder does not accept the
camelCase spelling of the tab-switch count, so the same value delivered
under tabSwitchCount and under tab_switch_count produces different feature
rows, refuting the claimed key-alias invariance of the scheduling
builder. -/
theorem sched_row_distinguishes_key_spellings :
    SchedulingModel.schedRow { emptyRec with tabSwitchCount := some 20 } ≠
      SchedulingModel.schedRow { emptyRec with tab_switch_count := some 20 } := by
  have h₁ : SchedulingModel.schedRow { emptyRec with tabSwitchCount := some 20 } =
      some [1/2, 0, 0, 5/24, 0, 0] := by
    simp [SchedulingModel.schedRow, SchedulingModel.featHour,
      SchedulingModel.featWeekday, SchedulingModel.methodIndex,
      SchedulingModel.METHODS, emptyRec, isoWeekday, isoDate, replaceZ,
      parseHourDigits]
    norm_num
  have h₂ : SchedulingModel.schedRow { emptyRec with tab_switch_count := some 20 } =
      some [1/2, 0, 0, 5/24, 1, 0] := by
    simp [SchedulingModel.schedRow, SchedulingModel.featHour,
      SchedulingModel.featWeekday, SchedulingModel.methodIndex,
      SchedulingModel.METHODS, emptyRec, isoWeekday, isoDate, replaceZ,
      parseHourDigits]
    norm_num
  rw [h₁, h₂]
  simp

/-- C3 amended: the performance builder accepts each per-record field under
its two alternate key names (duration_seconds then duration, tabSwitchCount
then tab_switch_count, method then method_used), preferring the first
present and applying the documented defaults (1500, 0, pomodoro) when both
are absent; the scheduling builder reads only the keys method_used,
duration_seconds and tab_switch_count with the same defaults, so a value
supplied only under the alternate spelling is ignored there in favor of the
default. -/
theorem feature_key_aliasing (v w : ℚ) (m : String) :
    PerformanceModel.perfTabs { emptyRec with tabSwitchCount := some v } = v ∧
    PerformanceModel.perfTabs { emptyRec with tab_switch_count := some v } = v ∧
    PerformanceModel.perfTabs
      { emptyRec with tabSwitchCount := some v, tab_switch_count := some w } = v ∧
    PerformanceModel.perfTabs emptyRec = 0 ∧
    PerformanceModel.perfDuration { emptyRec with duration_seconds := some v } = v ∧
    PerformanceModel.perfDuration { emptyRec with duration := some v } = v ∧
    PerformanceModel.perfDuration
      { emptyRec with duration_seconds := some v, duration := some w } = v ∧
    PerformanceModel.perfDuration emptyRec = 1500 ∧
    PerformanceModel.perfMethod { emptyRec with method := some m } = m ∧
    PerformanceModel.perfMethod { emptyRec with method_used := some m } = m ∧
    PerformanceModel.perfMethod emptyRec = "pomodoro" ∧
    SchedulingModel.schedRow
      { emptyRec with tabSwitchCount := some v, duration := some v, method := some m } =
      SchedulingModel.schedRow emptyRec ∧
    SchedulingModel.schedRow { emptyRec with tab_switch_count := some v } =
      some [1/2, 0, 0, 5/24, v / 20, 0] := by
  refine ⟨rfl, rfl, rfl, rfl, rfl, rfl, rfl, rfl, rfl, rfl, rfl, rfl, ?_⟩
  simp [SchedulingModel.schedRow, SchedulingModel.featHour,
    SchedulingModel.featWeekday, SchedulingModel.methodIndex,
    SchedulingModel.METHODS, emptyRec, isoWeekday, isoDate, replaceZ,
    parseHourDigits]
  norm_num

/-- Unfolded value of the tier rank on the high tier. -/
theorem tierRank_high : PerformanceModel.tierRank "high" = 2 := rfl

/-- Unfolded value of the tier rank on the medium tier. -/
theorem tierRank_medium : PerformanceModel.tierRank "medium" = 1 := rfl

/-- Unfolded value of the tier rank on the low tier. -/
theorem tierRank_low : PerformanceModel.tierRank "low" = 0 := rfl

/-- C6: the risk level follows the stated point accumulation and, for a
fixed tab-switch list, is monotone: decreasing the completion rate and the
quiz score never decreases the tier in the order low < medium < high. -/
theorem risk_level_monotone (ts : List ℚ) (c c₂ s s₂ : ℚ)
    (hc : c₂ ≤ c) (hs : s₂ ≤ s) :
    PerformanceModel.calculate_risk_level c s ts =
      (if PerformanceModel.riskPoints c s ts ≥ 4 then "high"
       else if PerformanceModel.riskPoints c s ts ≥ 2 then "medium"
       else "low") ∧
    PerformanceModel.tierRank (PerformanceModel.calculate_risk_level c s ts) ≤
      PerformanceModel.tierRank (PerformanceModel.calculate_risk_level c₂ s₂ ts) := by
  refine ⟨rfl, ?_⟩
  have h₁ : (if c < 1/2 then 2 else if c < 7/10 then 1 else 0) ≤
      (if c₂ < (1:ℚ)/2 then 2 else if c₂ < 7/10 then 1 else 0) := by
    split_ifs <;> first | omega | linarith
  have h₂ : (if s < 60 then 2 else if s < 75 then 1 else 0) ≤
      (if s₂ < (60:ℚ) then 2 else if s₂ < 75 then 1 else 0) := by
    split_ifs <;> first | omega | linarith
  have hp : PerformanceModel.riskPoints c s ts ≤
      PerformanceModel.riskPoints c₂ s₂ ts := by
    unfold PerformanceModel.riskPoints
    exact Nat.add_le_add (Nat.add_le_add h₁ h₂) le_rfl
  have key : ∀ a b : ℕ, a ≤ b →
      PerformanceModel.tierRank
        (if a ≥ 4 then "high" else if a ≥ 2 then "medium" else "low") ≤
      PerformanceModel.tierRank
        (if b ≥ 4 then "high" else if b ≥ 2 then "medium" else "low") := by
    intro a b h
    split_ifs <;>
      simp only [tierRank_high, tierRank_medium, tierRank_low] <;> omega
  exact key _ _ hp

/-- Witness for risk_level_monotone at concrete rates and scores. -/
theorem risk_level_monotone_witness :
    PerformanceModel.calculate_risk_level (8/10) 80 [0] =
      (if PerformanceModel.riskPoints (8/10) 80 [0] ≥ 4 then "high"
       else if PerformanceModel.riskPoints (8/10) 80 [0] ≥ 2 then "medium"
       else "low") ∧
    PerformanceModel.tierRank (PerformanceModel.calculate_risk_level (8/10) 80 [0]) ≤
      PerformanceModel.tierRank
        (PerformanceModel.calculate_risk_level (4/10) 50 [0]) :=
  risk_level_monotone [0] (8/10) (4/10) 80 50 (by norm_num) (by norm_num)

/-- Sorting a list of naturals with the ascending comparison yields a list
sorted ascending. -/
theorem sorted_isort_nat (l : List ℕ) :
    List.Sorted (· ≤ ·) (isort (fun a b => decide (a ≤ b)) l) := by
  have htot : ∀ a b : ℕ, (decide (a ≤ b)) = true ∨ (decide (b ≤ a)) = true := by
    intro a b
    rcases le_total a b with h | h
    · exact Or.inl (decide_eq_true h)
    · exact Or.inr (decide_eq_true h)
  have htrans : ∀ a b c : ℕ, (decide (a ≤ b)) = true → (decide (b ≤ c)) = true →
      (decide (a ≤ c)) = true := by
    intro a b c hab hbc
    exact decide_eq_true (le_trans (of_decide_eq_true hab) (of_decide_eq_true hbc))
  exact (pairwise_isort htot htrans l).imp (fun h => of_decide_eq_true h)

/-- C7: the optimal-hours computation returns at most 6 entries, sorted
ascending; the fallback window [9, 10, 11, 14, 15, 16] is returned exactly
when no hour has at least 3 sessions; and otherwise the result is the
ascending sort of the first 6 hours of the stable rate-descending ordering,
every member of which is an hour with at least 3 recorded sessions. -/
theorem optimal_hours_shape (user_data : List Record) :
    (SchedulingModel.find_optimal_hours user_data).length ≤ 6 ∧
    List.Sorted (· ≤ ·) (SchedulingModel.find_optimal_hours user_data) ∧
    ((∀ p ∈ SchedulingModel.hourStats user_data, p.2.total < 3) ↔
      SchedulingModel.hour_rates user_data = []) ∧
    (SchedulingModel.hour_rates user_data = [] →
      SchedulingModel.find_optimal_hours user_data = [9, 10, 11, 14, 15, 16]) ∧
    (SchedulingModel.hour_rates user_data ≠ [] →
      (SchedulingModel.find_optimal_hours user_data =
        isort (fun a b => decide (a ≤ b))
          (((isort (fun a b => decide (b.2 ≤ a.2))
              (SchedulingModel.hour_rates user_data)).take 6).map Prod.fst)) ∧
      ∀ h ∈ SchedulingModel.find_optimal_hours user_data,
        ∃ st, (h, st) ∈ SchedulingModel.hourStats user_data ∧ 3 ≤ st.total) := by
  refine ⟨?_, ?_, ?_, ?_, ?_⟩
  · simp only [SchedulingModel.find_optimal_hours, length_isort]
    split_ifs with h
    · simp
    · simp only [List.length_map, List.length_take]
      exact min_le_left _ _
  · exact sorted_isort_nat _
  · rw [SchedulingModel.hour_rates, List.filterMap_eq_nil]
    constructor
    · intro h p hp
      have := h p hp
      simp only [ge_iff_le]
      rw [if_neg]
      omega
    · intro h p hp
      have := h p hp
      by_contra hge
      rw [if_pos (by omega)] at this
      exact Option.some_ne_none _ this
  · intro h
    rw [SchedulingModel.find_optimal_hours]
    simp only [h, List.isEmpty_nil, if_true]
    rfl
  · intro hne
    have he : (SchedulingModel.hour_rates user_data).isEmpty = false := by
      rcases hq : SchedulingModel.hour_rates user_data with _ | ⟨a, l⟩
      · exact absurd hq hne
      · rfl
    constructor
    · rw [SchedulingModel.find_optimal_hours]
      simp only [he, Bool.false_eq_true, if_false]
    · intro h hh
      rw [SchedulingModel.find_optimal_hours] at hh
      simp only [he, Bool.false_eq_true, if_false] at hh
      have h₁ := mem_isort.mp hh
      rcases List.mem_map.mp h₁ with ⟨pair, hpair, hfst⟩
      have h₂ : pair ∈ isort (fun a b => decide (b.2 ≤ a.2))
          (SchedulingModel.hour_rates user_data) := List.take_subset _ _ hpair
      have h₃ : pair ∈ SchedulingModel.hour_rates user_data := mem_isort.mp h₂
      rw [SchedulingModel.hour_rates] at h₃
      rcases List.mem_filterMap.mp h₃ with ⟨p, hp, hf⟩
      by_cases hge : p.2.total ≥ 3
      · rw [if_pos hge] at hf
        refine ⟨p.2, ?_, hge⟩
        have hpe : (p.1, (p.2.completedCount : ℚ) / p.2.total) = pair :=
          Option.some.inj hf
        have hp1 : pair.1 = p.1 := by rw [← hpe]
        rw [← hfst, hp1]
        exact hp
      · rw [if_neg hge] at hf
        exact absurd hf (Option.noConfusion)

/-- Witness for optimal_hours_shape: the empty history falls back to the
default window, and a history of three sessions with no timestamp yields the
single qualifying hour 12. -/
theorem optimal_hours_shape_witness :
    SchedulingModel.find_optimal_hours [] = [9, 10, 11, 14, 15, 16] ∧
    SchedulingModel.find_optimal_hours [emptyRec, emptyRec, emptyRec] =
      isort (fun a b => decide (a ≤ b))
        (((isort (fun a b => decide (b.2 ≤ a.2))
            (SchedulingModel.hour_rates [emptyRec, emptyRec, emptyRec])).take 6).map
          Prod.fst) := by
  constructor
  · exact (optimal_hours_shape []).2.2.2.1 rfl
  · refine ((optimal_hours_shape [emptyRec, emptyRec, emptyRec]).2.2.2.2 ?_).1
    simp [SchedulingModel.hour_rates, SchedulingModel.hourStats,
      SchedulingModel.optHourOf, upsert, emptyRec, List.foldl]

/-- Lookup under a default-empty row equals bind through the optional
row. -/
theorem lookupA_getD_bind {c : String} (o : Option (List (String × ℚ))) :
    lookupA c (o.getD []) = o.bind (lookupA c) := by
  cases o <;> rfl

/-- Bind of a some is application. -/
theorem option_bind_some {α β : Type} (a : α) (f : α → Option β) :
    (some a).bind f = f a := rfl

/-- Maximum of two interaction scores follows the boolean disjunction of
their completion flags. -/
theorem max_if_score (a b : Bool) :
    max (if a = true then (1 : ℚ) else 1/2) (if b = true then (1 : ℚ) else 1/2) =
      (if (a || b) = true then (1 : ℚ) else 1/2) := by
  cases a <;> cases b
  · simp
  · simpa using max_eq_right (by norm_num : (1 : ℚ)/2 ≤ 1)
  · simpa using max_eq_left (by norm_num : (1 : ℚ)/2 ≤ 1)
  · simp

/-- Effect of one training-loop iteration on the stored interaction score of
a fixed (user, course) pair. -/
theorem lookupScore_trainStep
    (acc : RecommendationModel.UserProfiles × RecommendationModel.CourseProfiles)
    (r : Record) (u c : String) :
    RecommendationModel.lookupScore (RecommendationModel.trainStep acc r).1 u c =
      (if RecommendationModel.recUserId r = some u ∧
          RecommendationModel.recCourseId r = some c
       then some (max ((RecommendationModel.lookupScore acc.1 u c).getD 0)
         (if r.completed then (1 : ℚ) else 1/2))
       else RecommendationModel.lookupScore acc.1 u c) := by
  by_cases hcond : RecommendationModel.recUserId r = some u ∧
      RecommendationModel.recCourseId r = some c
  · rw [if_pos hcond]
    obtain ⟨hu, hc⟩ := hcond
    simp only [RecommendationModel.trainStep, hu, hc,
      RecommendationModel.lookupScore, lookupA_upsert_self, option_bind_some,
      lookupA_getD_bind]
  · rw [if_neg hcond]
    rcases hu : RecommendationModel.recUserId r with _ | u₂
    · simp only [RecommendationModel.trainStep, hu]
    · rcases hc : RecommendationModel.recCourseId r with _ | c₂
      · simp only [RecommendationModel.trainStep, hu, hc]
      · by_cases h₁ : u₂ = u
        · subst h₁
          have h₂ : c₂ ≠ c := by
            intro h
            exact hcond ⟨hu, by rw [hc, h]⟩
          simp only [RecommendationModel.trainStep, hu, hc,
            RecommendationModel.lookupScore, lookupA_upsert_self,
            option_bind_some, lookupA_upsert_ne _ h₂, lookupA_getD_bind]
        · simp only [RecommendationModel.trainStep, hu, hc,
            RecommendationModel.lookupScore, lookupA_upsert_ne _ h₁]

/-- Stored interaction score after folding the training loop from an
arbitrary accumulator. -/
theorem train_fold (u c : String) :
    ∀ (data : List Record)
      (acc : RecommendationModel.UserProfiles × RecommendationModel.CourseProfiles),
      RecommendationModel.lookupScore (data.foldl RecommendationModel.trainStep acc).1 u c =
        (if (data.filter (fun r => decide (RecommendationModel.recUserId r = some u ∧
              RecommendationModel.recCourseId r = some c))).isEmpty
         then RecommendationModel.lookupScore acc.1 u c
         else some (max ((RecommendationModel.lookupScore acc.1 u c).getD 0)
           (if (data.filter (fun r => decide (RecommendationModel.recUserId r = some u ∧
                 RecommendationModel.recCourseId r = some c))).any (fun r => r.completed)
            then 1 else 1/2))) := by
  intro data
  induction data with
  | nil => intro acc; simp
  | cons r rest ih =>
      intro acc
      rw [List.foldl_cons, ih (RecommendationModel.trainStep acc r),
        lookupScore_trainStep]
      by_cases hp : RecommendationModel.recUserId r = some u ∧
          RecommendationModel.recCourseId r = some c
      · have hcons : (r :: rest).filter
            (fun r => decide (RecommendationModel.recUserId r = some u ∧
              RecommendationModel.recCourseId r = some c)) =
            r :: rest.filter (fun r => decide (RecommendationModel.recUserId r = some u ∧
              RecommendationModel.recCourseId r = some c)) :=
          List.filter_cons_of_pos (decide_eq_true hp)
        rw [if_pos hp, hcons]
        rcases hFq : rest.filter (fun r => decide (RecommendationModel.recUserId r = some u ∧
            RecommendationModel.recCourseId r = some c)) with _ | ⟨x, xs⟩
        · simp [hFq]
        · simp only [hFq, List.isEmpty_cons, Bool.false_eq_true, if_false,
            Option.getD_some, List.any_cons]
          rw [max_assoc, max_if_score]
      · have hcons : (r :: rest).filter
            (fun r => decide (RecommendationModel.recUserId r = some u ∧
              RecommendationModel.recCourseId r = some c)) =
            rest.filter (fun r => decide (RecommendationModel.recUserId r = some u ∧
              RecommendationModel.recCourseId r = some c)) :=
          List.filter_cons_of_neg (by simp [hp])
        rw [if_neg hp, hcons]

/-- C9: after training, the stored interaction score of a (user, course)
pair exists exactly when the pair was observed in a record carrying both
identifiers, and equals 1 exactly when some observation of the pair is
completed, and 0.5 otherwise (the maximum over observations of 1 for a
completed and 0.5 for an incomplete observation); records lacking either
identifier contribute nothing, since the observation filter requires both. -/
theorem interaction_score_characterization (data : List Record) (u c : String) :
    RecommendationModel.lookupScore (RecommendationModel.train data).1 u c =
      (if (data.filter (fun r => decide (RecommendationModel.recUserId r = some u ∧
            RecommendationModel.recCourseId r = some c))).isEmpty
       then none
       else some (if (data.filter (fun r =>
             decide (RecommendationModel.recUserId r = some u ∧
               RecommendationModel.recCourseId r = some c))).any (fun r => r.completed)
           then 1 else 1/2)) := by
  have h := train_fold u c data ([], [])
  rw [RecommendationModel.train, h]
  have hz : RecommendationModel.lookupScore
      ((([], []) : RecommendationModel.UserProfiles ×
        RecommendationModel.CourseProfiles)).1 u c = none := rfl
  rw [hz]
  simp only [Option.getD_none]
  split_ifs with hemp hany
  · rfl
  · exact congrArg some (max_eq_right (by norm_num))
  · exact congrArg some (max_eq_right (by norm_num))

/-- Every entry of the fixed skill/difficulty lookup, the unmapped default
included, lies in the unit interval. -/
theorem levelMatchScore_bounds (u c : String) :
    0 ≤ RecommendationModel.levelMatchScore u c ∧
      RecommendationModel.levelMatchScore u c ≤ 1 := by
  rw [RecommendationModel.levelMatchScore]
  rcases hl : lookupA (u, c) RecommendationModel.level_match with _ | v
  · norm_num
  · simp only [Option.getD_some]
    have hm := lookupA_mem hl
    simp only [RecommendationModel.level_match, List.mem_cons, List.not_mem_nil,
      or_false, Prod.mk.injEq] at hm
    rcases hm with ⟨_, rfl⟩ | ⟨_, rfl⟩ | ⟨_, rfl⟩ | ⟨_, rfl⟩ | ⟨_, rfl⟩ |
      ⟨_, rfl⟩ | ⟨_, rfl⟩ | ⟨_, rfl⟩ | ⟨_, rfl⟩ <;> norm_num

/-- A similar-user contribution produced by the collaborative loop lies in
the unit interval whenever the stored interaction scores of that other user
do. -/
theorem collabTerm_bounds (uid : String) (userKeys : List String)
    (cid : Option String) (other : String × List (String × ℚ)) (x : ℚ)
    (hother : ∀ q ∈ other.2, 0 ≤ q.2 ∧ q.2 ≤ 1)
    (hx : RecommendationModel.collabTerm uid userKeys cid other = some x) :
    0 ≤ x ∧ x ≤ 1 := by
  rw [RecommendationModel.collabTerm] at hx
  split_ifs at hx
  rcases hlo : RecommendationModel.lookupOpt cid other.2 with _ | v
  · simp only [hlo] at hx
    exact absurd hx (Option.noConfusion)
  · simp only [hlo] at hx
    split_ifs at hx with hov
    · have hv : 0 ≤ v ∧ v ≤ 1 := by
        rcases hcid : cid with _ | c₀
        · rw [hcid] at hlo
          exact absurd hlo (Option.noConfusion)
        · rw [hcid] at hlo
          exact hother (c₀, v) (lookupA_mem hlo)
      have hle : (userKeys.filter
          (fun c => decide (c ∈ other.2.map Prod.fst))).length ≤
          (userKeys ++ (other.2.map Prod.fst).filter
            (fun c => decide (c ∉ userKeys))).length := by
        rw [List.length_append]
        exact le_trans (List.length_filter_le _ _) (Nat.le_add_right _ _)
      have hpos : 0 < (userKeys ++ (other.2.map Prod.fst).filter
          (fun c => decide (c ∉ userKeys))).length := lt_of_lt_of_le hov hle
      have hs : 0 ≤ ((userKeys.filter
            (fun c => decide (c ∈ other.2.map Prod.fst))).length : ℚ) /
            ((userKeys ++ (other.2.map Prod.fst).filter
              (fun c => decide (c ∉ userKeys))).length : ℚ) ∧
          ((userKeys.filter
            (fun c => decide (c ∈ other.2.map Prod.fst))).length : ℚ) /
            ((userKeys ++ (other.2.map Prod.fst).filter
              (fun c => decide (c ∉ userKeys))).length : ℚ) ≤ 1 := by
        constructor
        · exact div_nonneg (by positivity) (by positivity)
        · rw [div_le_one (by exact_mod_cast hpos)]
          exact_mod_cast hle
      have hxe : v * (((userKeys.filter
          (fun c => decide (c ∈ other.2.map Prod.fst))).length : ℚ) /
          ((userKeys ++ (other.2.map Prod.fst).filter
            (fun c => decide (c ∉ userKeys))).length : ℚ)) = x :=
        Option.some.inj hx
      rw [← hxe]
      exact ⟨mul_nonneg hv.1 hs.1, mul_le_one hv.2 hs.1 hs.2⟩

/-- The collaborative-filtering score lies in the unit interval whenever
every stored interaction score of the profile structure does. -/
theorem collab_bounds (ud : RecommendationModel.UserData) (cid : Option String)
    (up : RecommendationModel.UserProfiles)
    (hup : ∀ p ∈ up, ∀ q ∈ p.2, 0 ≤ q.2 ∧ q.2 ≤ 1) :
    0 ≤ RecommendationModel.calcCollaborative ud cid up ∧
      RecommendationModel.calcCollaborative ud cid up ≤ 1 := by
  rw [RecommendationModel.calcCollaborative]
  rcases hu : (match ud.id with | some v => some v | none => ud.user_id)
      with _ | uid
  · simp only [hu]
    norm_num
  · simp only [hu]
    rcases hl : lookupA uid up with _ | ucs
    · simp only [hl]
      norm_num
    · simp only [hl]
      by_cases hS : (up.filterMap
          (RecommendationModel.collabTerm uid (ucs.map Prod.fst) cid)).isEmpty
      · rw [if_pos hS]
        norm_num
      · rw [if_neg hS]
        have hmem : ∀ x ∈ up.filterMap
            (RecommendationModel.collabTerm uid (ucs.map Prod.fst) cid),
            0 ≤ x ∧ x ≤ 1 := by
          intro x hx
          rcases List.mem_filterMap.mp hx with ⟨other, hother, hfn⟩
          exact collabTerm_bounds uid (ucs.map Prod.fst) cid other x
            (fun q hq => hup other hother q hq) hfn
        have hlen : 0 < ((up.filterMap
            (RecommendationModel.collabTerm uid (ucs.map Prod.fst) cid)).length : ℚ) := by
          have : up.filterMap
              (RecommendationModel.collabTerm uid (ucs.map Prod.fst) cid) ≠ [] := by
            intro h
            rw [h] at hS
            exact hS rfl
          have := List.length_pos.mpr this
          exact_mod_cast this
        constructor
        · exact div_nonneg
            (list_sum_nonneg _ (fun x hx => (hmem x hx).1)) hlen.le
        · rw [div_le_one hlen]
          exact list_sum_le_length _ (fun x hx => (hmem x hx).2)

/-- One training iteration preserves the structural bounds of the two
lookup structures: interaction scores stay in the unit interval and
completed tallies never exceed totals. -/
theorem trainStep_bounds
    (acc : RecommendationModel.UserProfiles × RecommendationModel.CourseProfiles)
    (r : Record)
    (h₁ : ∀ p ∈ acc.1, ∀ q ∈ p.2, 0 ≤ q.2 ∧ q.2 ≤ 1)
    (h₂ : ∀ p ∈ acc.2, p.2.completedCount ≤ p.2.total) :
    (∀ p ∈ (RecommendationModel.trainStep acc r).1, ∀ q ∈ p.2,
      0 ≤ q.2 ∧ q.2 ≤ 1) ∧
    (∀ p ∈ (RecommendationModel.trainStep acc r).2,
      p.2.completedCount ≤ p.2.total) := by
  rcases hu : RecommendationModel.recUserId r with _ | u
  · simp only [RecommendationModel.trainStep, hu]
    exact ⟨h₁, h₂⟩
  rcases hc : RecommendationModel.recCourseId r with _ | c
  · simp only [RecommendationModel.trainStep, hu, hc]
    exact ⟨h₁, h₂⟩
  have hrow : ∀ q₂ ∈ ((lookupA u acc.1).getD []), 0 ≤ q₂.2 ∧ q₂.2 ≤ 1 := by
    rcases hl : lookupA u acc.1 with _ | row₀
    · simp
    · intro q₂ hq₂
      exact h₁ (u, row₀) (lookupA_mem hl) q₂ hq₂
  simp only [RecommendationModel.trainStep, hu, hc]
  constructor
  · intro p hp q hq
    rcases mem_upsert hp with hmem | hpe
    · exact h₁ p hmem q hq
    · rw [hpe] at hq
      simp only [] at hq
      rcases mem_upsert hq with hm₂ | hqe
      · exact hrow q hm₂
      · rw [hqe]
        simp only []
        have hscore : 0 ≤ (if r.completed then (1 : ℚ) else 1/2) ∧
            (if r.completed then (1 : ℚ) else 1/2) ≤ 1 := by
          split_ifs <;> norm_num
        have hold : 0 ≤ ((lookupA c ((lookupA u acc.1).getD [])).getD 0) ∧
            ((lookupA c ((lookupA u acc.1).getD [])).getD 0) ≤ 1 := by
          rcases hl₂ : lookupA c ((lookupA u acc.1).getD []) with _ | v
          · simp
          · simp only [Option.getD_some]
            exact hrow (c, v) (lookupA_mem hl₂)
        exact ⟨le_max_of_le_left hold.1, max_le hold.2 hscore.2⟩
  · intro p hp
    rcases mem_upsert hp with hmem | hpe
    · exact h₂ p hmem
    · rw [hpe]
      simp only []
      rcases hl : lookupA c acc.2 with _ | st
      · simp only [Option.getD_none]
        split_ifs <;> simp
      · simp only [Option.getD_some]
        have hst : st.completedCount ≤ st.total := h₂ (c, st) (lookupA_mem hl)
        split_ifs <;> simp <;> omega

/-- The lookup structures built by train satisfy the structural bounds:
every stored interaction score lies in the unit interval and every course
tally has completed at most total. -/
theorem train_profiles_bounded (data : List Record) :
    (∀ p ∈ (RecommendationModel.train data).1, ∀ q ∈ p.2,
      0 ≤ q.2 ∧ q.2 ≤ 1) ∧
    (∀ p ∈ (RecommendationModel.train data).2,
      p.2.completedCount ≤ p.2.total) := by
  rw [RecommendationModel.train]
  have key : ∀ (l : List Record)
      (acc : RecommendationModel.UserProfiles × RecommendationModel.CourseProfiles),
      (∀ p ∈ acc.1, ∀ q ∈ p.2, 0 ≤ q.2 ∧ q.2 ≤ 1) →
      (∀ p ∈ acc.2, p.2.completedCount ≤ p.2.total) →
      (∀ p ∈ (l.foldl RecommendationModel.trainStep acc).1, ∀ q ∈ p.2,
        0 ≤ q.2 ∧ q.2 ≤ 1) ∧
      (∀ p ∈ (l.foldl RecommendationModel.trainStep acc).2,
        p.2.completedCount ≤ p.2.total) := by
    intro l
    induction l with
    | nil => intro acc ha hb; exact ⟨ha, hb⟩
    | cons r rest ih =>
        intro acc ha hb
        rw [List.foldl_cons]
        obtain ⟨g₁, g₂⟩ := trainStep_bounds acc r ha hb
        exact ih _ g₁ g₂
  exact key data ([], []) (by simp) (by simp)

/-- The popularity signal is bounded by its 0.30 weight whenever completed
tallies never exceed totals. -/
theorem popularity_bounds (course : RecommendationModel.Course)
    (cp : RecommendationModel.CourseProfiles)
    (hcp : ∀ p ∈ cp, p.2.completedCount ≤ p.2.total) :
    0 ≤ RecommendationModel.popularityScore course cp ∧
      RecommendationModel.popularityScore course cp ≤ 3/10 := by
  rw [RecommendationModel.popularityScore]
  rcases hl : RecommendationModel.lookupOpt course.id cp with _ | st
  · simp only [hl]
    norm_num
  · simp only [hl]
    split_ifs with ht
    · have hmem : st.completedCount ≤ st.total := by
        rcases hcid : course.id with _ | cid
        · rw [hcid] at hl
          exact absurd hl (Option.noConfusion)
        · rw [hcid] at hl
          exact hcp (cid, st) (lookupA_mem hl)
      have h01 : 0 ≤ (st.completedCount : ℚ) / st.total ∧
          (st.completedCount : ℚ) / st.total ≤ 1 := by
        constructor
        · positivity
        · rw [div_le_one (by exact_mod_cast ht)]
          exact_mod_cast hmem
      constructor
      · exact mul_nonneg h01.1 (by norm_num)
      · have := mul_le_mul_of_nonneg_right h01.2
          (show (0 : ℚ) ≤ 3/10 by norm_num)
        simpa using this
    · norm_num

/-- C5: with the lookup structures produced by training, the recommendation
score of any candidate lies in the unit interval, and each of the four
weighted signals is individually bounded by its weight (0.30 popularity,
0.20 difficulty match, 0.30 interest bonus, 0.20 collaborative), with the
total capped at 1. -/
theorem recommendation_score_bounds (data : List Record)
    (user_data : RecommendationModel.UserData)
    (course : RecommendationModel.Course) :
    0 ≤ RecommendationModel.calculate_course_score user_data course
        (RecommendationModel.train data).1 (RecommendationModel.train data).2 ∧
    RecommendationModel.calculate_course_score user_data course
        (RecommendationModel.train data).1 (RecommendationModel.train data).2 ≤ 1 ∧
    0 ≤ RecommendationModel.popularityScore course (RecommendationModel.train data).2 ∧
    RecommendationModel.popularityScore course (RecommendationModel.train data).2 ≤ 3/10 ∧
    0 ≤ RecommendationModel.difficultyScore user_data course ∧
    RecommendationModel.difficultyScore user_data course ≤ 2/10 ∧
    0 ≤ RecommendationModel.interestScore user_data course ∧
    RecommendationModel.interestScore user_data course ≤ 3/10 ∧
    0 ≤ RecommendationModel.collaborativeScore user_data course
        (RecommendationModel.train data).1 ∧
    RecommendationModel.collaborativeScore user_data course
        (RecommendationModel.train data).1 ≤ 2/10 := by
  obtain ⟨hup, hcp⟩ := train_profiles_bounded data
  obtain ⟨hp0, hp3⟩ := popularity_bounds course _ hcp
  have hd : 0 ≤ RecommendationModel.difficultyScore user_data course ∧
      RecommendationModel.difficultyScore user_data course ≤ 2/10 := by
    obtain ⟨hl0, hl1⟩ := levelMatchScore_bounds
      (user_data.skill_level.getD "beginner") (course.difficulty.getD "beginner")
    rw [RecommendationModel.difficultyScore]
    constructor
    · exact mul_nonneg hl0 (by norm_num)
    · have := mul_le_mul_of_nonneg_right hl1 (show (0 : ℚ) ≤ 2/10 by norm_num)
      simpa using this
  have hi : 0 ≤ RecommendationModel.interestScore user_data course ∧
      RecommendationModel.interestScore user_data course ≤ 3/10 := by
    rw [RecommendationModel.interestScore]
    split_ifs <;> norm_num
  have hco : 0 ≤ RecommendationModel.collaborativeScore user_data course
      (RecommendationModel.train data).1 ∧
      RecommendationModel.collaborativeScore user_data course
        (RecommendationModel.train data).1 ≤ 2/10 := by
    obtain ⟨hc0, hc1⟩ := collab_bounds user_data course.id
      (RecommendationModel.train data).1 hup
    rw [RecommendationModel.collaborativeScore]
    constructor
    · exact mul_nonneg hc0 (by norm_num)
    · have := mul_le_mul_of_nonneg_right hc1 (show (0 : ℚ) ≤ 2/10 by norm_num)
      simpa using this
  refine ⟨?_, ?_, hp0, hp3, hd.1, hd.2, hi.1, hi.2, hco.1, hco.2⟩
  · rw [RecommendationModel.calculate_course_score]
    refine le_min (by norm_num) ?_
    have := add_nonneg (add_nonneg (add_nonneg hp0 hd.1) hi.1) hco.1
    linarith
  · rw [RecommendationModel.calculate_course_score]
    exact min_le_left _ _

/-- C10: the label encoder fitted at construction stores the four methods in
sorted order, and for every one of the four integer labels, encoding the
method obtained by decoding the label yields the label back. -/
theorem label_encoder_roundtrip :
    SchedulingModel.encoderClasses.length = 4 ∧
    ∀ i : Fin 4,
      (SchedulingModel.labelDecode i).bind SchedulingModel.labelTransform =
        some (i : ℕ) := by
  decide

end SkillChain
